import Mathlib

/-!
Shallow embedding of lullaby's `EntityFactory`
(`src/lullaby/modules/ecs/entity_factory.cc`).

The factory's registration data (systems, def-type map, converters, the
asset-loading collaborator) is held in `Env`; the mutable per-factory data
(entity generator, entity-to-blueprint-name map, pending-destruction queue,
blueprint asset cache) is held in `FState`.  System callbacks
(`CreateComponent`, `PostCreateComponent`, `Destroy`) are recorded as an
`Event` trace.  Entities are `uint32_t` in the source, modelled as `Nat`
with arithmetic modulo `2 ^ 32` where the generator can wrap; a `CHECK`
failure (process abort) is modelled as `Option.none`.
-/

namespace Lull

abbrev Entity := Nat
abbrev HashValue := Nat
abbrev TypeId := Nat

/-- `kNullEntity` is 0, the reserved null handle. -/
def kNullEntity : Entity := 0

/-- The entity generator is a `uint32_t`; its arithmetic is modulo `2 ^ 32`. -/
def entityMod : Nat := 2 ^ 32

/-- One component record of a Blueprint: this core only reads its legacy
def-type hash (`Blueprint::GetLegacyDefType`); the payload is opaque. -/
structure Component where
  defType : HashValue
deriving DecidableEq, Repr

/-- A `BlueprintTree`: a component list plus an ordered list of child trees. -/
inductive BlueprintTree where
  | node (components : List Component) (children : List BlueprintTree)

/-- A raw flatbuffer byte span: its length (`GetSize`), the embedded file
identifier read by `flatbuffers::GetBufferIdentifier`, and opaque remaining
content. -/
structure RawBuffer where
  size : Nat
  identifier : String
  content : Nat

/-- A registered schema converter (`EntityFactory::FlatbufferConverter`):
its file identifier and its decode function (`converter->load`). -/
structure FlatbufferConverter where
  identifier : String
  load : RawBuffer → Option BlueprintTree

/-- Registration-time data of the factory (unchanged by the create/destroy
operations modelled here).

Modelled from the spec: the container type of `systems_` is declared in
`entity_factory.h`, which is not under `src/`; per the spec (sections 4.2 and
4.7) `Destroy` invokes the destruction hooks "in system-registration order",
so `systems` is modelled as a registration-ordered association list, which
`AddSystem`'s first-write-wins logic (visible in the source) maintains.
Each registered System instance is represented by an opaque `Nat` tag.
`loader` is the external asset-loading collaborator's synchronous
`LoadNow` (spec section 6: deterministic/idempotent per filename). -/
structure Env where
  systems : List (TypeId × Nat)
  type_map : List (HashValue × TypeId)
  converters : List FlatbufferConverter
  loader : String → RawBuffer

/-- Mutable factory state: `entity_generator_`, `entity_to_blueprint_map_`,
`pending_destroy_` (front of the list = front of the queue) and the
`blueprints_` asset cache. -/
structure FState where
  entity_generator : Nat
  entity_to_blueprint_map : List (Entity × String)
  pending_destroy : List Entity
  blueprints : List (HashValue × RawBuffer)

/-- A recorded System callback. -/
inductive Event where
  | createComponent (system : Nat) (entity : Entity) (defType : HashValue)
  | postCreateComponent (system : Nat) (entity : Entity) (defType : HashValue)
  | destroyComponent (system : Nat) (entity : Entity)
deriving DecidableEq, Repr

/-- Lookup in an association list (the maps are `std::unordered_map`s with at
most one entry per key, which `assocSet`/`assocErase` maintain). -/
def assocFind {β : Type} (m : List (Nat × β)) (k : Nat) : Option β :=
  (m.find? fun p => p.1 == k).map fun p => p.2

/-- `m[k] = v`: replace the entry for `k`, or append a fresh one. -/
def assocSet {β : Type} (m : List (Nat × β)) (k : Nat) (v : β) : List (Nat × β) :=
  match m with
  | [] => [(k, v)]
  | p :: rest => if p.1 = k then (k, v) :: rest else p :: assocSet rest k v

/-- `m.erase(k)`: drop the entry for `k`. -/
def assocErase {β : Type} (m : List (Nat × β)) (k : Nat) : List (Nat × β) :=
  m.filter fun p => !(p.1 == k)

/-- Effect of `operator[]` used for reading: `entity_to_blueprint_map_[entity]`
in the unknown-system diagnostic default-inserts an empty-string entry when the
key is absent and leaves the map unchanged otherwise. -/
def mapTouch (m : List (Entity × String)) (k : Entity) : List (Entity × String) :=
  match assocFind m k with
  | some _ => m
  | none => assocSet m k ""

/-- `EntityFactory::AddSystem`: ignore a null system; first write wins. -/
def AddSystem (env : Env) (system_type : TypeId) (system : Option Nat) : Env :=
  match system with
  | none => env
  | some s =>
    if (env.systems.find? fun p => p.1 == system_type).isSome then env
    else { env with systems := env.systems ++ [(system_type, s)] }

/-- `EntityFactory::RegisterDef`: `type_map_[def_type] = system_type`
(last write wins). -/
def RegisterDef (env : Env) (system_type : TypeId) (def_type : HashValue) : Env :=
  { env with type_map := assocSet env.type_map def_type system_type }

/-- `EntityFactory::GetSystem`: def-type hash to system-type id via
`type_map_`, then system-type id to System via `systems_`; null when either
lookup misses. -/
def GetSystem (env : Env) (def_type : HashValue) : Option Nat :=
  match assocFind env.type_map def_type with
  | none => none
  | some tid => assocFind env.systems tid

/-- `EntityFactory::Create()`: `++entity_generator_` (uint32), with
`CHECK_NE(entity, kNullEntity)` on wrap-around modelled as `none` (abort). -/
def Create (st : FState) : Option (Entity × FState) :=
  let e := (st.entity_generator + 1) % entityMod
  if e = kNullEntity then none
  else some (e, { st with entity_generator := e })

/-- `EntityFactory::GetFlatbufferConverter`: a single registered converter is
returned unconditionally; otherwise the first converter whose identifier
equals the requested one, or none. -/
def GetFlatbufferConverter (cs : List FlatbufferConverter) (identifier : String) :
    Option FlatbufferConverter :=
  if cs.length = 1 then cs.head?
  else cs.find? fun c => identifier == c.identifier

/-- `EntityFactory::Finalize`: looks up a converter with the empty requested
identifier and, when one is found, re-encodes the blueprint through its
finalize function (the external `Blueprint::Finalize`).  The returned
converter stands for the produced byte span; `none` is the empty span after
the fatal diagnostic. -/
def Finalize (cs : List FlatbufferConverter) : Option FlatbufferConverter :=
  GetFlatbufferConverter cs ""

/-- `EntityFactory::CreateBlueprintFromData`: null data is rejected; the
buffer's embedded identifier picks the converter, whose `load` decodes. -/
def CreateBlueprintFromData (env : Env) (_name : String) (data : Option RawBuffer) :
    Option BlueprintTree :=
  match data with
  | none => none
  | some d =>
    match GetFlatbufferConverter env.converters d.identifier with
    | none => none
    | some conv => conv.load d

/-- The create-phase callback trace of one component list: for each component
in source order, the resolved System's `CreateComponent` call; components
whose system does not resolve contribute no call. -/
def createTrace (env : Env) (e : Entity) (comps : List Component) : List Event :=
  comps.filterMap fun c =>
    (GetSystem env c.defType).map fun s => Event.createComponent s e c.defType

/-- The post-create-phase callback trace: `PostCreateComponent` per resolved
component, in the same source order, silently skipping unresolved ones. -/
def postTrace (env : Env) (e : Entity) (comps : List Component) : List Event :=
  comps.filterMap fun c =>
    (GetSystem env c.defType).map fun s => Event.postCreateComponent s e c.defType

/-- The first `ForEachComponent` pass of `CreateImpl`: resolved components get
a `CreateComponent` call; an unresolved component emits the fatal diagnostic,
whose `entity_to_blueprint_map_[entity]` stream argument default-inserts an
empty-string map entry for an entity not yet in the map. -/
def createPhase (env : Env) (e : Entity) : FState → List Component → FState × List Event
  | st, [] => (st, [])
  | st, c :: rest =>
    match GetSystem env c.defType with
    | some s =>
      let r := createPhase env e st rest
      (r.1, Event.createComponent s e c.defType :: r.2)
    | none =>
      createPhase env e
        { st with entity_to_blueprint_map := mapTouch st.entity_to_blueprint_map e } rest

mutual

/-- `EntityFactory::CreateImpl(Entity, Blueprint*, std::list<BlueprintTree>*)`:
reject a null entity or null blueprint (returning `false` with no callback);
otherwise run the create phase over the top-level components, construct every
child tree (when a child list is present), then run the post-create phase.
`none` models a process abort from entity-generator overflow below. -/
def CreateImpl (env : Env) (st : FState) (entity : Entity)
    (blueprint : Option (List Component)) (children : Option (List BlueprintTree)) :
    Option (FState × List Event × Bool) :=
  if entity = kNullEntity then some (st, [], false)
  else
    match blueprint with
    | none => some (st, [], false)
    | some comps =>
      let p := createPhase env entity st comps
      match children with
      | none => some (p.1, p.2 ++ postTrace env entity comps, true)
      | some cs =>
        match createChildren env p.1 cs with
        | none => none
        | some q => some (q.1, p.2 ++ q.2 ++ postTrace env entity comps, true)
termination_by sizeOf children
decreasing_by simp_wf

/-- The child loop of `CreateImpl`: each child in source order through
`create_child_fn_` (whose boolean result the loop ignores). -/
def createChildren (env : Env) (st : FState) (cs : List BlueprintTree) :
    Option (FState × List Event) :=
  match cs with
  | [] => some (st, [])
  | c :: rest =>
    match createChild env st c with
    | none => none
    | some q =>
      match createChildren env q.1 rest with
      | none => none
      | some r => some (r.1, q.2 ++ r.2)
termination_by sizeOf cs
decreasing_by all_goals simp_wf <;> omega

/-- Modelled from the spec: the default `create_child_fn_` is installed in
`entity_factory.h`, which is not under `src/`; per the spec (section 4.6 step
3) it assigns the child a freshly allocated entity id and applies the same
construction protocol to the child tree. -/
def createChild (env : Env) (st : FState) (c : BlueprintTree) :
    Option (FState × List Event) :=
  match Create st with
  | none => none
  | some (e, st1) =>
    match c with
    | .node comps cc =>
      match CreateImpl env st1 e (some comps) (some cc) with
      | none => none
      | some r => some (r.1, r.2.1)
termination_by sizeOf c
decreasing_by
  simp_wf
  have h : 0 < sizeOf comps := by cases comps <;> simp
  omega

end

/-- `EntityFactory::CreateImpl(Entity, BlueprintTree*)` dereferences the tree
and passes its component list and child list to the three-argument form. -/
def CreateImpl_tree (env : Env) (st : FState) (entity : Entity) :
    BlueprintTree → Option (FState × List Event × Bool)
  | .node comps cc => CreateImpl env st entity (some comps) (some cc)

/-- `EntityFactory::CreateImpl(Entity, const std::string&, const void*, size_t)`:
reject a null entity or null data, decode the buffer, record the
entity-to-blueprint-name entry, then construct the decoded tree. -/
def CreateImpl_data (env : Env) (st : FState) (entity : Entity) (name : String)
    (data : Option RawBuffer) : Option (FState × List Event × Bool) :=
  if entity = kNullEntity then some (st, [], false)
  else
    match data with
    | none => some (st, [], false)
    | some d =>
      match CreateBlueprintFromData env name (some d) with
      | none => some (st, [], false)
      | some t =>
        CreateImpl_tree env
          { st with entity_to_blueprint_map := assocSet st.entity_to_blueprint_map entity name }
          entity t

/-- `EntityFactory::CreateFromBlueprint(const void*, size_t, const std::string&)`:
allocate an id, then construct from the raw data; null entity on failure. -/
def CreateFromBlueprint (env : Env) (st : FState) (data : Option RawBuffer)
    (name : String) : Option (Entity × FState × List Event) :=
  match Create st with
  | none => none
  | some (e, st1) =>
    match CreateImpl_data env st1 e name data with
    | none => none
    | some (st2, tr, ok) => some (if ok then e else kNullEntity, st2, tr)

/-- `EntityFactory::CreateFromBlueprint(Entity, const void*, size_t,
const std::string&)`: construct raw data into a caller-supplied entity. -/
def CreateFromBlueprintInto (env : Env) (st : FState) (entity : Entity)
    (data : Option RawBuffer) (name : String) : Option (FState × List Event × Bool) :=
  CreateImpl_data env st entity name data

/-- `EntityFactory::Create(Blueprint*)`: allocate an id, construct the
(childless) blueprint, and only on success record the empty-name map entry. -/
def Create_blueprint (env : Env) (st : FState) (bp : Option (List Component)) :
    Option (Entity × FState × List Event) :=
  match Create st with
  | none => none
  | some (e, st1) =>
    match CreateImpl env st1 e bp none with
    | none => none
    | some (st2, tr, ok) =>
      if ok then
        some (e, { st2 with
          entity_to_blueprint_map := assocSet st2.entity_to_blueprint_map e "" }, tr)
      else some (kNullEntity, st2, tr)

/-- `EntityFactory::Create(Entity, BlueprintTree*)`: records the empty-name
map entry for the caller-supplied entity before `CreateImpl` validates it. -/
def Create_entity_tree (env : Env) (st : FState) (entity : Entity) (t : BlueprintTree) :
    Option (Entity × FState × List Event) :=
  let st0 := { st with
    entity_to_blueprint_map := assocSet st.entity_to_blueprint_map entity "" }
  match CreateImpl_tree env st0 entity t with
  | none => none
  | some (st1, tr, ok) => some (if ok then entity else kNullEntity, st1, tr)

/-- `EntityFactory::Create(BlueprintTree*)`: allocate an id, then the
caller-supplied-entity path. -/
def Create_tree (env : Env) (st : FState) (t : BlueprintTree) :
    Option (Entity × FState × List Event) :=
  match Create st with
  | none => none
  | some (e, st1) => Create_entity_tree env st1 e t

/-- Filename normalization in `GetBlueprintAsset`: append ".bin" unless the
name already ends in ".json". -/
def filenameOf (name : String) : String :=
  if name.endsWith ".json" then name else name ++ ".bin"

/-- Modelled from the spec: `lull::Hash` (`util/hash.h`, not under `src/`) is
the filename-to-cache-key hash; it is modelled as an injective stand-in fold
over the characters, which no claim's behaviour depends on beyond determinism. -/
def HashStr (s : String) : Nat :=
  s.foldl (fun h c => h * 1114112 + c.toNat + 1) 0

/-- `EntityFactory::GetBlueprintAsset`: normalize the name, hash it to a key,
serve from the `blueprints_` cache or load through the asset-loading
collaborator; a zero-length asset is reported absent.  The boolean records
whether the collaborator's `LoadNow` was invoked on this call.

Modelled from the spec: `ResourceManager<SimpleAsset>::Create`
(`util/resource_manager.h`, not under `src/`) returns the cached asset for
the key when present and otherwise invokes the load function; per the spec
(section 4.5) the loaded asset is cached for all subsequent lookups, and a
zero-length asset is "not cached as a negative result". -/
def GetBlueprintAsset (env : Env) (st : FState) (name : String) :
    Option RawBuffer × FState × Bool :=
  let key := HashStr (filenameOf name)
  match assocFind st.blueprints key with
  | some a => (if a.size = 0 then none else some a, st, false)
  | none =>
    let a := env.loader (filenameOf name)
    if a.size = 0 then (none, st, true)
    else (some a, { st with blueprints := assocSet st.blueprints key a }, true)

/-- `EntityFactory::Create(const std::string&)`: resolve the named asset
first (returning the null entity, with no id allocated, when it is absent),
then allocate and construct from the raw data. -/
def Create_name (env : Env) (st : FState) (name : String) :
    Option (Entity × FState × List Event) :=
  match GetBlueprintAsset env st name with
  | (none, st1, _) => some (kNullEntity, st1, [])
  | (some d, st1, _) => CreateFromBlueprint env st1 (some d) name

/-- `EntityFactory::Create(Entity, const std::string&)`: resolve the named
asset, then construct the raw data into the caller-supplied entity. -/
def Create_entity_name (env : Env) (st : FState) (entity : Entity) (name : String) :
    Option (Entity × FState × List Event) :=
  match GetBlueprintAsset env st name with
  | (none, st1, _) => some (kNullEntity, st1, [])
  | (some d, st1, _) =>
    match CreateImpl_data env st1 entity name (some d) with
    | none => none
    | some (st2, tr, ok) => some (if ok then entity else kNullEntity, st2, tr)

/-- The destruction-hook trace of one entity: every registered System's
`Destroy`, in registration order, unconditionally. -/
def destroyTrace (env : Env) (e : Entity) : List Event :=
  if e = kNullEntity then []
  else env.systems.map fun p => Event.destroyComponent p.2 e

/-- `EntityFactory::Destroy`: no-op on the null entity; otherwise erase the
name-map entry and call every registered System's destruction hook. -/
def Destroy (env : Env) (st : FState) (e : Entity) : FState × List Event :=
  if e = kNullEntity then (st, [])
  else
    ({ st with entity_to_blueprint_map := assocErase st.entity_to_blueprint_map e },
     env.systems.map fun p => Event.destroyComponent p.2 e)

/-- `EntityFactory::QueueForDestruction`: no-op on the null entity; otherwise
push onto the back of the pending queue (under the lock). -/
def QueueForDestruction (st : FState) (e : Entity) : FState :=
  if e = kNullEntity then st
  else { st with pending_destroy := st.pending_destroy ++ [e] }

/-- The drain loop of `DestroyQueuedEntities`: pop the front of the swapped
queue and `Destroy` it until the snapshot is empty. -/
def drainList (env : Env) : FState → List Entity → FState × List Event
  | st, [] => (st, [])
  | st, e :: rest =>
    let d := Destroy env st e
    let r := drainList env d.1 rest
    (r.1, d.2 ++ r.2)

/-- `EntityFactory::DestroyQueuedEntities`: swap the pending queue out under
the lock, then destroy each snapshot entry in FIFO order. -/
def DestroyQueuedEntities (env : Env) (st : FState) : FState × List Event :=
  drainList env { st with pending_destroy := [] } st.pending_destroy

/-- A drain with concurrent enqueues: the lock makes each
`QueueForDestruction` atomic with respect to the queue swap, so an enqueue
interleaved with the drain lands in the freshly swapped-in queue; enqueues
touch only `pending_destroy` and `Destroy` never reads it, so the interleaved
run equals enqueueing `during` right after the swap and then draining the
snapshot. -/
def DestroyQueuedEntitiesWith (env : Env) (st : FState) (during : List Entity) :
    FState × List Event :=
  drainList env (during.foldl QueueForDestruction { st with pending_destroy := [] })
    st.pending_destroy

/-- Fixture: a factory whose System 10 is registered under system-type 3 and
handles def-type 7, with no converters and a loader whose every asset is
empty (zero length). -/
def envDemo : Env := ⟨[(3, 10)], [(7, 3)], [], fun _ => ⟨0, "", 0⟩⟩

/-- Fixture: the construction-order scenario tree — one parent component of
def-type 7 and two child blueprints each holding one such component. -/
def demoTree : BlueprintTree :=
  .node [⟨7⟩] [.node [⟨7⟩] [], .node [⟨7⟩] []]

/-- Fixture: the callback order expected for `demoTree` built into entity 1
with children allocated entities 2 and 3. -/
def demoTraceLog : List Event :=
  [.createComponent 10 1 7,
   .createComponent 10 2 7, .postCreateComponent 10 2 7,
   .createComponent 10 3 7, .postCreateComponent 10 3 7,
   .postCreateComponent 10 1 7]

/-- Fixture converter with file identifier "AAAA" (decodes nothing). -/
def convA : FlatbufferConverter := ⟨"AAAA", fun _ => none⟩

/-- Fixture converter with file identifier "BBBB" (decodes nothing). -/
def convB : FlatbufferConverter := ⟨"BBBB", fun _ => none⟩

/-- Fixture converter registered with an empty identifier. -/
def convEmptyId : FlatbufferConverter := ⟨"", fun _ => none⟩

/-- Fixture: a factory with converters "AAAA" and "BBBB" registered, no
systems, and an empty-asset loader. -/
def envAB : Env := ⟨[], [], [convA, convB], fun _ => ⟨0, "", 0⟩⟩

/-- Fixture converter for identifier "ENTS" decoding every buffer to an
empty blueprint tree. -/
def convEnts : FlatbufferConverter := ⟨"ENTS", fun _ => some (.node [] [])⟩

/-- Fixture: a factory with only the "ENTS" converter registered. -/
def envEnts : Env := ⟨[], [], [convEnts], fun _ => ⟨0, "", 0⟩⟩

/-- Fixture: a factory with two Systems (11 then 22) registered, used to
observe destruction order. -/
def envTwo : Env := ⟨[(1, 11), (2, 22)], [], [], fun _ => ⟨0, "", 0⟩⟩

/-- Fixture state: entity 5 recorded in the name map. -/
def stFive : FState := ⟨9, [(5, "thing")], [3], []⟩

theorem sizeOf_list_pos {α : Type} [SizeOf α] (l : List α) : 0 < sizeOf l := by
  cases l <;> simp

theorem assocFind_cons {β : Type} (p : Nat × β) (rest : List (Nat × β)) (k : Nat) :
    assocFind (p :: rest) k = if p.1 = k then some p.2 else assocFind rest k := by
  unfold assocFind
  by_cases h : p.1 = k
  · rw [List.find?_cons_of_pos _ (by simpa using h), if_pos h]
    rfl
  · rw [List.find?_cons_of_neg _ (by simpa using h), if_neg h]

theorem assocErase_cons {β : Type} (p : Nat × β) (rest : List (Nat × β)) (k : Nat) :
    assocErase (p :: rest) k =
      if p.1 = k then assocErase rest k else p :: assocErase rest k := by
  by_cases h : p.1 = k <;> simp [assocErase, List.filter_cons, h]

theorem assocFind_set_self {β : Type} (m : List (Nat × β)) (k : Nat) (v : β) :
    assocFind (assocSet m k v) k = some v := by
  induction m with
  | nil => simp [assocSet, assocFind_cons, assocFind]
  | cons p rest ih =>
    unfold assocSet
    by_cases hp : p.1 = k
    · rw [if_pos hp, assocFind_cons]
      simp
    · rw [if_neg hp, assocFind_cons, if_neg hp]
      exact ih

theorem assocFind_set_ne {β : Type} (m : List (Nat × β)) (k k' : Nat) (v : β)
    (h : k' ≠ k) : assocFind (assocSet m k v) k' = assocFind m k' := by
  induction m with
  | nil => simp [assocSet, assocFind_cons, assocFind, Ne.symm h]
  | cons p rest ih =>
    unfold assocSet
    by_cases hp : p.1 = k
    · rw [if_pos hp, assocFind_cons, assocFind_cons, if_neg (Ne.symm h),
        if_neg (fun hh => h (hp.symm.trans hh).symm)]
    · rw [if_neg hp, assocFind_cons, assocFind_cons]
      by_cases hp' : p.1 = k'
      · rw [if_pos hp', if_pos hp']
      · rw [if_neg hp', if_neg hp']
        exact ih

theorem assocFind_erase_self {β : Type} (m : List (Nat × β)) (k : Nat) :
    assocFind (assocErase m k) k = none := by
  induction m with
  | nil => simp [assocErase, assocFind]
  | cons p rest ih =>
    rw [assocErase_cons]
    by_cases hp : p.1 = k
    · rw [if_pos hp]
      exact ih
    · rw [if_neg hp, assocFind_cons, if_neg hp]
      exact ih

theorem assocFind_erase_ne {β : Type} (m : List (Nat × β)) (k k' : Nat)
    (h : k' ≠ k) : assocFind (assocErase m k) k' = assocFind m k' := by
  induction m with
  | nil => simp [assocErase, assocFind]
  | cons p rest ih =>
    rw [assocErase_cons, assocFind_cons]
    by_cases hp : p.1 = k
    · rw [if_pos hp, if_neg (hp ▸ fun hh => h hh.symm), ih]
    · rw [if_neg hp, assocFind_cons]
      by_cases hp' : p.1 = k'
      · rw [if_pos hp', if_pos hp']
      · rw [if_neg hp', if_neg hp']
        exact ih

theorem mapTouch_preserve (m : List (Entity × String)) (e k : Entity) (v : String)
    (h : assocFind m k = some v) : assocFind (mapTouch m e) k = some v := by
  unfold mapTouch
  cases hf : assocFind m e with
  | some w => exact h
  | none =>
    by_cases hk : k = e
    · subst hk
      rw [h] at hf
      cases hf
    · rw [assocFind_set_ne m e k "" hk]
      exact h

/-- State evolution produced by the construction protocol: the pending queue
and asset cache are untouched, the generator only advances (staying a valid
uint32), and every existing name-map binding is preserved. -/
def Preserves (st st' : FState) : Prop :=
  st'.pending_destroy = st.pending_destroy ∧
  st'.blueprints = st.blueprints ∧
  (st.entity_generator < entityMod →
    st.entity_generator ≤ st'.entity_generator ∧ st'.entity_generator < entityMod) ∧
  ∀ k v, assocFind st.entity_to_blueprint_map k = some v →
    assocFind st'.entity_to_blueprint_map k = some v

theorem Preserves_refl (st : FState) : Preserves st st :=
  ⟨rfl, rfl, fun h => ⟨le_refl _, h⟩, fun _ _ h => h⟩

theorem Preserves_trans {a b c : FState} (h1 : Preserves a b) (h2 : Preserves b c) :
    Preserves a c := by
  obtain ⟨p1, b1, g1, m1⟩ := h1
  obtain ⟨p2, b2, g2, m2⟩ := h2
  refine ⟨p2.trans p1, b2.trans b1, ?_, fun k v h => m2 k v (m1 k v h)⟩
  intro ha
  obtain ⟨hle1, hlt1⟩ := g1 ha
  obtain ⟨hle2, hlt2⟩ := g2 hlt1
  exact ⟨hle1.trans hle2, hlt2⟩

theorem createPhase_trace (env : Env) (e : Entity) :
    ∀ (st : FState) (comps : List Component),
      (createPhase env e st comps).2 = createTrace env e comps := by
  intro st comps
  induction comps generalizing st with
  | nil => rfl
  | cons c rest ih =>
    cases hs : GetSystem env c.defType with
    | some s => simp [createPhase, createTrace, List.filterMap_cons, hs, ih]
    | none => simp [createPhase, createTrace, List.filterMap_cons, hs, ih]

theorem createPhase_preserves (env : Env) (e : Entity) :
    ∀ (st : FState) (comps : List Component),
      Preserves st (createPhase env e st comps).1 := by
  intro st comps
  induction comps generalizing st with
  | nil => exact Preserves_refl st
  | cons c rest ih =>
    cases hs : GetSystem env c.defType with
    | some s =>
      simpa [createPhase, hs] using ih st
    | none =>
      simp only [createPhase, hs]
      refine Preserves_trans ?_ (ih _)
      exact ⟨rfl, rfl, fun h => ⟨le_refl _, h⟩,
        fun k v h => mapTouch_preserve _ e k v h⟩

theorem Create_some (st : FState) (e : Entity) (st' : FState)
    (h : Create st = some (e, st')) :
    e = (st.entity_generator + 1) % entityMod ∧ e ≠ kNullEntity ∧
    st' = { st with entity_generator := e } ∧ e < entityMod ∧
    (st.entity_generator < entityMod → st.entity_generator < e) := by
  simp only [Create] at h
  split at h
  · cases h
  · rename_i hne
    injection h with h1
    injection h1 with he hst
    subst he hst
    refine ⟨rfl, hne, rfl, Nat.mod_lt _ (by decide), ?_⟩
    intro hlt
    rcases Nat.lt_or_ge (st.entity_generator + 1) entityMod with hc | hc
    · rw [Nat.mod_eq_of_lt hc]
      omega
    · have : st.entity_generator + 1 = entityMod := by omega
      rw [this, Nat.mod_self] at hne ⊢
      exact absurd rfl hne

theorem Create_preserves (st : FState) (e : Entity) (st' : FState)
    (h : Create st = some (e, st')) : Preserves st st' := by
  obtain ⟨he, hne, hst, hlt, hgt⟩ := Create_some st e st' h
  subst hst
  exact ⟨rfl, rfl, fun hg => ⟨le_of_lt (hgt hg), he ▸ hlt⟩, fun _ _ hv => hv⟩

theorem sizeOf_tree_pos (c : BlueprintTree) : 0 < sizeOf c := by
  cases c with
  | node a b => simp only [BlueprintTree.node.sizeOf_spec]; omega

theorem construct_inv (n : Nat) :
    (∀ env st e bp ch r, sizeOf ch ≤ n →
      CreateImpl env st e bp ch = some r → Preserves st r.1) ∧
    (∀ env st cs r, sizeOf cs ≤ n →
      createChildren env st cs = some r → Preserves st r.1) ∧
    (∀ env st c r, sizeOf c ≤ n →
      createChild env st c = some r → Preserves st r.1) := by
  induction n with
  | zero =>
    refine ⟨?_, ?_, ?_⟩
    · intro env st e bp ch r hle _
      cases ch <;> simp at hle
    · intro env st cs r hle _
      cases cs <;> simp at hle
    · intro env st c r hle _
      have := sizeOf_tree_pos c
      omega
  | succ n ih =>
    obtain ⟨ihI, ihL, ihC⟩ := ih
    refine ⟨?_, ?_, ?_⟩
    · intro env st e bp ch r hle h
      rw [CreateImpl.eq_def] at h
      dsimp only at h
      split at h
      · injection h with h1
        subst h1
        exact Preserves_refl st
      · split at h
        · injection h with h1
          subst h1
          exact Preserves_refl st
        · rename_i comps
          split at h
          · injection h with h1
            subst h1
            exact createPhase_preserves env e st comps
          · rename_i cs
            split at h
            · cases h
            · rename_i q heq
              injection h with h1
              subst h1
              have hsz : sizeOf cs ≤ n := by
                simp only [Option.some.sizeOf_spec] at hle
                omega
              exact Preserves_trans (createPhase_preserves env e st comps)
                (ihL env _ cs q hsz heq)
    · intro env st cs r hle h
      cases cs with
      | nil =>
        rw [createChildren.eq_def] at h
        injection h with h1
        subst h1
        exact Preserves_refl st
      | cons c rest =>
        rw [createChildren.eq_def] at h
        dsimp only at h
        split at h
        · cases h
        · rename_i q heq1
          split at h
          · cases h
          · rename_i r2 heq2
            injection h with h1
            subst h1
            have hc := sizeOf_tree_pos c
            have hr := sizeOf_list_pos rest
            simp only [List.cons.sizeOf_spec] at hle
            exact Preserves_trans (ihC env st c q (by omega) heq1)
              (ihL env q.1 rest r2 (by omega) heq2)
    · intro env st c r hle h
      cases c with
      | node comps cc =>
        rw [createChild.eq_def] at h
        dsimp only at h
        split at h
        · cases h
        · rename_i e st1 heqC
          split at h
          · cases h
          · rename_i r2 heqI
            injection h with h1
            subst h1
            have hcs : 0 < sizeOf comps := sizeOf_list_pos comps
            simp only [BlueprintTree.node.sizeOf_spec] at hle
            have hsz : sizeOf (some cc : Option (List BlueprintTree)) ≤ n := by
              simp only [Option.some.sizeOf_spec]
              omega
            exact Preserves_trans (Create_preserves st e st1 heqC)
              (ihI env st1 e (some comps) (some cc) r2 hsz heqI)

theorem CreateImpl_preserves (env : Env) (st : FState) (e : Entity)
    (bp : Option (List Component)) (ch : Option (List BlueprintTree))
    (r : FState × List Event × Bool) (h : CreateImpl env st e bp ch = some r) :
    Preserves st r.1 :=
  (construct_inv (sizeOf ch)).1 env st e bp ch r (le_refl _) h

theorem createChildren_preserves (env : Env) (st : FState) (cs : List BlueprintTree)
    (r : FState × List Event) (h : createChildren env st cs = some r) :
    Preserves st r.1 :=
  (construct_inv (sizeOf cs)).2.1 env st cs r (le_refl _) h

theorem CreateImpl_tree_preserves (env : Env) (st : FState) (e : Entity)
    (t : BlueprintTree) (r : FState × List Event × Bool)
    (h : CreateImpl_tree env st e t = some r) : Preserves st r.1 := by
  cases t with
  | node comps cc => exact CreateImpl_preserves env st e (some comps) (some cc) r h

/-- C2: on one factory instance, consecutive successful calls of the
no-argument `Create()` return strictly increasing entity ids, and no returned
id is the null entity; ids are never handed back to the generator. -/
theorem create_ids_strictly_increasing (st st1 st2 : FState) (e e' : Entity)
    (h1 : Create st = some (e, st1)) (h2 : Create st1 = some (e', st2)) :
    e ≠ kNullEntity ∧ e' ≠ kNullEntity ∧ e < e' := by
  obtain ⟨he, hne, hst, hlt, _⟩ := Create_some st e st1 h1
  obtain ⟨he', hne', _, _, hgt'⟩ := Create_some st1 e' st2 h2
  subst hst
  exact ⟨hne, hne', hgt' hlt⟩

/-- Witness for C2 at the initial generator: the first two allocated ids are
1 and 2. -/
theorem create_ids_strictly_increasing_witness :
    Create ⟨0, [], [], []⟩ = some (1, ⟨1, [], [], []⟩) ∧
    Create ⟨1, [], [], []⟩ = some (2, ⟨2, [], [], []⟩) ∧
    ((1 : Entity) ≠ kNullEntity ∧ (2 : Entity) ≠ kNullEntity ∧ (1 : Entity) < 2) :=
  ⟨rfl, rfl,
   create_ids_strictly_increasing ⟨0, [], [], []⟩ ⟨1, [], [], []⟩ ⟨2, [], [], []⟩
     1 2 rfl rfl⟩

/-- C3: `GetFlatbufferConverter` returns the single registered converter
unconditionally when exactly one is registered; with more than one registered
it returns a registered converter whose identifier equals the requested one —
and whenever some registered converter's identifier equals the request, a
matching registered converter is indeed returned — and none when no
registered identifier matches. -/
theorem get_flatbuffer_converter_resolution (cs : List FlatbufferConverter)
    (id : String) :
    (∀ c, cs = [c] → GetFlatbufferConverter cs id = some c) ∧
    (1 < cs.length → ∀ c, GetFlatbufferConverter cs id = some c →
      c ∈ cs ∧ c.identifier = id) ∧
    (1 < cs.length → (∀ c ∈ cs, c.identifier ≠ id) →
      GetFlatbufferConverter cs id = none) ∧
    (1 < cs.length → (∃ c ∈ cs, c.identifier = id) →
      ∃ c', GetFlatbufferConverter cs id = some c' ∧ c' ∈ cs ∧
        c'.identifier = id) := by
  refine ⟨?_, ?_, ?_, ?_⟩
  · intro c hc
    subst hc
    rfl
  · intro hlen c hc
    unfold GetFlatbufferConverter at hc
    rw [if_neg (by omega)] at hc
    refine ⟨List.mem_of_find?_eq_some hc, ?_⟩
    have hp := List.find?_some hc
    simp only [beq_iff_eq] at hp
    exact hp.symm
  · intro hlen hall
    unfold GetFlatbufferConverter
    rw [if_neg (by omega), List.find?_eq_none]
    intro c hcmem
    simp only [beq_iff_eq]
    exact fun hh => (hall c hcmem) hh.symm
  · intro hlen hex
    obtain ⟨c, hc, hid⟩ := hex
    unfold GetFlatbufferConverter
    rw [if_neg (by omega)]
    have hsome : (cs.find? fun x => id == x.identifier).isSome := by
      rw [List.find?_isSome]
      exact ⟨c, hc, by simp [beq_iff_eq, hid]⟩
    obtain ⟨c', hc'⟩ := Option.isSome_iff_exists.mp hsome
    refine ⟨c', hc', List.mem_of_find?_eq_some hc', ?_⟩
    have hp := List.find?_some hc'
    simp only [beq_iff_eq] at hp
    exact hp.symm

/-- Witness for C3: a lone converter is returned for a non-matching request;
with "AAAA" and "BBBB" registered, requesting "BBBB" resolves to a matching
registered converter (that converter being second) and requesting "CCCC"
resolves to none. -/
theorem get_flatbuffer_converter_resolution_witness :
    GetFlatbufferConverter [convA] "ZZZZ" = some convA ∧
    (convB ∈ [convA, convB] ∧ convB.identifier = "BBBB") ∧
    GetFlatbufferConverter [convA, convB] "CCCC" = none ∧
    (∃ c', GetFlatbufferConverter [convA, convB] "BBBB" = some c' ∧
      c' ∈ [convA, convB] ∧ c'.identifier = "BBBB") :=
  ⟨(get_flatbuffer_converter_resolution [convA] "ZZZZ").1 convA rfl,
   (get_flatbuffer_converter_resolution [convA, convB] "BBBB").2.1
     (by simp) convB rfl,
   (get_flatbuffer_converter_resolution [convA, convB] "CCCC").2.2.1 (by simp)
     (by
       intro c hc
       simp only [List.mem_cons, List.not_mem_nil, or_false] at hc
       rcases hc with rfl | rfl <;> decide),
   (get_flatbuffer_converter_resolution [convA, convB] "BBBB").2.2.2 (by simp)
     ⟨convB, by simp, rfl⟩⟩

/-- C9 counterexample: with the two converters "" and "BBBB" registered
(more than one), `Finalize` still resolves a converter and produces bytes,
contradicting the claim that multiple registered converters always yield an
empty span. -/
theorem finalize_multiple_converters_counterexample :
    1 < ([convEmptyId, convB] : List FlatbufferConverter).length ∧
    (Finalize [convEmptyId, convB]).isSome = true :=
  ⟨by simp, rfl⟩

/-- C9 (amended): `Finalize` produces re-encoded bytes exactly when one
converter is registered, or when several are registered and some registered
converter has the empty identifier (the scan for the empty requested
identifier finds it); with zero converters, or several all having non-empty
identifiers, the fatal diagnostic fires and no bytes are produced. -/
theorem finalize_bytes_characterization (cs : List FlatbufferConverter) :
    (Finalize cs).isSome = true ↔
      (cs.length = 1 ∨ ∃ c ∈ cs, c.identifier = "") := by
  unfold Finalize GetFlatbufferConverter
  by_cases h1 : cs.length = 1
  · rw [if_pos h1]
    cases cs with
    | nil => simp at h1
    | cons a rest => simp [h1]
  · rw [if_neg h1, List.find?_isSome]
    constructor
    · rintro ⟨c, hc, hp⟩
      simp only [beq_iff_eq] at hp
      exact Or.inr ⟨c, hc, hp.symm⟩
    · rintro (hc | ⟨c, hc, hp⟩)
      · exact absurd hc h1
      · exact ⟨c, hc, by simp [beq_iff_eq, hp]⟩

/-- C5: `Destroy` is a no-op on the null entity; on any non-null entity it
removes that entity's name-map entry (leaving all other entries untouched)
and calls every registered System's destruction hook for it, in
system-registration order, unconditionally, leaving the generator and the
pending queue alone. -/
theorem destroy_behavior (env : Env) (st : FState) (e : Entity)
    (h : e ≠ kNullEntity) :
    Destroy env st kNullEntity = (st, []) ∧
    assocFind (Destroy env st e).1.entity_to_blueprint_map e = none ∧
    (∀ k, k ≠ e → assocFind (Destroy env st e).1.entity_to_blueprint_map k =
      assocFind st.entity_to_blueprint_map k) ∧
    (Destroy env st e).2 = env.systems.map (fun p => Event.destroyComponent p.2 e) ∧
    (Destroy env st e).1.entity_generator = st.entity_generator ∧
    (Destroy env st e).1.pending_destroy = st.pending_destroy := by
  have hD : Destroy env st e =
      ({ st with entity_to_blueprint_map := assocErase st.entity_to_blueprint_map e },
       env.systems.map fun p => Event.destroyComponent p.2 e) := by
    unfold Destroy
    rw [if_neg h]
  refine ⟨rfl, ?_, ?_, ?_, ?_, ?_⟩
  · rw [hD]
    exact assocFind_erase_self _ e
  · intro k hk
    rw [hD]
    exact assocFind_erase_ne _ e k hk
  · rw [hD]
  · rw [hD]
  · rw [hD]

/-- Witness for C5: destroying entity 5 (present in the name map) under two
registered Systems. -/
theorem destroy_behavior_witness :
    (5 : Entity) ≠ kNullEntity ∧
    (Destroy envTwo stFive kNullEntity = (stFive, []) ∧
     assocFind (Destroy envTwo stFive 5).1.entity_to_blueprint_map 5 = none ∧
     (∀ k, k ≠ 5 → assocFind (Destroy envTwo stFive 5).1.entity_to_blueprint_map k =
       assocFind stFive.entity_to_blueprint_map k) ∧
     (Destroy envTwo stFive 5).2 =
       envTwo.systems.map (fun p => Event.destroyComponent p.2 5) ∧
     (Destroy envTwo stFive 5).1.entity_generator = stFive.entity_generator ∧
     (Destroy envTwo stFive 5).1.pending_destroy = stFive.pending_destroy) :=
  ⟨by decide, destroy_behavior envTwo stFive 5 (by decide)⟩

/-- State components of the factory not touched by `GetBlueprintAsset`
(it only ever extends the asset cache). -/
theorem GetBlueprintAsset_state (env : Env) (st : FState) (name : String) :
    (GetBlueprintAsset env st name).2.1.entity_to_blueprint_map =
      st.entity_to_blueprint_map ∧
    (GetBlueprintAsset env st name).2.1.entity_generator = st.entity_generator ∧
    (GetBlueprintAsset env st name).2.1.pending_destroy = st.pending_destroy := by
  simp only [GetBlueprintAsset]
  split
  · exact ⟨rfl, rfl, rfl⟩
  · split
    · exact ⟨rfl, rfl, rfl⟩
    · exact ⟨rfl, rfl, rfl⟩

/-- C7: when the loaded asset for a name has zero length, `GetBlueprintAsset`
reports it absent, leaves the factory state unchanged (no negative cache
entry), and a subsequent call with the same name invokes the asset-loading
collaborator again (the boolean component records a `LoadNow` invocation). -/
theorem zero_length_asset_not_cached (env : Env) (st : FState) (name : String)
    (hload : (env.loader (filenameOf name)).size = 0)
    (hmiss : assocFind st.blueprints (HashStr (filenameOf name)) = none) :
    GetBlueprintAsset env st name = (none, st, true) ∧
    GetBlueprintAsset env (GetBlueprintAsset env st name).2.1 name =
      (none, st, true) := by
  have h1 : GetBlueprintAsset env st name = (none, st, true) := by
    simp [GetBlueprintAsset, hmiss, hload]
  refine ⟨h1, ?_⟩
  rw [h1]
  exact h1

/-- Witness for C7: the all-empty loader of the demo factory misses on
"missing" twice, invoking the loader both times. -/
theorem zero_length_asset_not_cached_witness :
    ((envDemo.loader (filenameOf "missing")).size = 0 ∧
     assocFind (⟨0, [], [], []⟩ : FState).blueprints
       (HashStr (filenameOf "missing")) = none) ∧
    (GetBlueprintAsset envDemo ⟨0, [], [], []⟩ "missing" =
       (none, ⟨0, [], [], []⟩, true) ∧
     GetBlueprintAsset envDemo
       (GetBlueprintAsset envDemo ⟨0, [], [], []⟩ "missing").2.1 "missing" =
       (none, ⟨0, [], [], []⟩, true)) :=
  ⟨⟨rfl, rfl⟩,
   zero_length_asset_not_cached envDemo ⟨0, [], [], []⟩ "missing" rfl rfl⟩

theorem Destroy_pending (env : Env) (st : FState) (e : Entity) :
    (Destroy env st e).1.pending_destroy = st.pending_destroy := by
  unfold Destroy
  split <;> rfl

theorem Destroy_trace_eq (env : Env) (st : FState) (e : Entity) :
    (Destroy env st e).2 = destroyTrace env e := by
  unfold Destroy destroyTrace
  split <;> rfl

theorem drainList_pending (env : Env) :
    ∀ (st : FState) (q : List Entity),
      (drainList env st q).1.pending_destroy = st.pending_destroy := by
  intro st q
  induction q generalizing st with
  | nil => rfl
  | cons e rest ih =>
    simp only [drainList]
    rw [ih]
    exact Destroy_pending env st e

theorem drainList_trace (env : Env) :
    ∀ (st : FState) (q : List Entity),
      (drainList env st q).2 = (q.map (destroyTrace env)).flatten := by
  intro st q
  induction q generalizing st with
  | nil => rfl
  | cons e rest ih =>
    simp only [drainList, List.map_cons, List.flatten_cons]
    rw [ih, Destroy_trace_eq]

theorem queue_foldl_pending :
    ∀ (during : List Entity) (st : FState),
      (during.foldl QueueForDestruction st).pending_destroy =
        st.pending_destroy ++ during.filter (fun e => decide (e ≠ kNullEntity)) := by
  intro during
  induction during with
  | nil =>
    intro st
    simp
  | cons e rest ih =>
    intro st
    simp only [List.foldl_cons, List.filter_cons]
    by_cases he : e = kNullEntity
    · simp [QueueForDestruction, he, ih]
    · simp [QueueForDestruction, he, ih]

/-- C4: draining the destruction queue first swaps the whole pending queue
out, then destroys exactly the snapshot's entries, each once, in FIFO order
through the immediate `Destroy` path; entities enqueued while the drain runs
land in the fresh queue and are destroyed by the next drain, never the
current one. -/
theorem destroy_queued_entities_protocol (env : Env) (st : FState)
    (during : List Entity) :
    DestroyQueuedEntities env st = DestroyQueuedEntitiesWith env st [] ∧
    (DestroyQueuedEntitiesWith env st during).2 =
      (st.pending_destroy.map (destroyTrace env)).flatten ∧
    (DestroyQueuedEntitiesWith env st during).1.pending_destroy =
      during.filter (fun e => decide (e ≠ kNullEntity)) ∧
    (DestroyQueuedEntities env (DestroyQueuedEntitiesWith env st during).1).2 =
      ((during.filter fun e => decide (e ≠ kNullEntity)).map
        (destroyTrace env)).flatten := by
  refine ⟨rfl, ?_, ?_, ?_⟩
  · unfold DestroyQueuedEntitiesWith
    rw [drainList_trace]
  · unfold DestroyQueuedEntitiesWith
    rw [drainList_pending, queue_foldl_pending]
    rfl
  · unfold DestroyQueuedEntities
    rw [drainList_trace]
    unfold DestroyQueuedEntitiesWith
    rw [drainList_pending, queue_foldl_pending]
    rfl

/-- C6 counterexample: `Create(Entity, BlueprintTree*)` records the
entity-to-blueprint-name entry before validating, so calling it with the null
entity mutates the name map even though the request is rejected — the claim's
"no side effects" fails on this public entry point. -/
theorem create_entity_tree_null_side_effect :
    Create_entity_tree envDemo ⟨0, [], [], []⟩ kNullEntity (.node [] []) =
      some (kNullEntity, ⟨0, [(kNullEntity, "")], [], []⟩, []) ∧
    (⟨0, [(kNullEntity, "")], [], []⟩ : FState).entity_to_blueprint_map ≠
      (⟨0, [], [], []⟩ : FState).entity_to_blueprint_map := by
  constructor
  · simp [Create_entity_tree, CreateImpl_tree, CreateImpl.eq_def, assocSet,
      kNullEntity]
  · simp

/-- C6 (amended): `CreateImpl` (both the blueprint form and the raw-data
form) rejects a null entity id, a null blueprint and null data with no System
callback and no state change; `Create(Entity, name)` with a null entity
invokes no callback and leaves the name map unchanged; `Create(Blueprint*)`
given a null blueprint returns the null entity with no callback and only the
id allocation performed — but `Create(Entity, BlueprintTree*)` records the
null entity's empty-name map entry before validation rejects the request. -/
theorem null_input_rejection (env : Env) (st : FState) :
    (∀ bp ch, CreateImpl env st kNullEntity bp ch = some (st, [], false)) ∧
    (∀ e ch, CreateImpl env st e none ch = some (st, [], false)) ∧
    (∀ name data, CreateImpl_data env st kNullEntity name data =
      some (st, [], false)) ∧
    (∀ e name, CreateImpl_data env st e name none = some (st, [], false)) ∧
    (∀ name, ∃ st1, Create_entity_name env st kNullEntity name =
      some (kNullEntity, st1, []) ∧
      st1.entity_to_blueprint_map = st.entity_to_blueprint_map) ∧
    (Create_blueprint env st none =
      (Create st).map fun p => (kNullEntity, p.2, ([] : List Event))) ∧
    (∀ t, Create_entity_tree env st kNullEntity t =
      some (kNullEntity,
        { st with entity_to_blueprint_map :=
            assocSet st.entity_to_blueprint_map kNullEntity "" },
        [])) := by
  refine ⟨?_, ?_, ?_, ?_, ?_, ?_, ?_⟩
  · intro bp ch
    rw [CreateImpl.eq_def]
    rw [if_pos rfl]
  · intro e ch
    rw [CreateImpl.eq_def]
    dsimp only
    split
    · rfl
    · rfl
  · intro name data
    rfl
  · intro e name
    unfold CreateImpl_data
    split
    · rfl
    · rfl
  · intro name
    have hm := (GetBlueprintAsset_state env st name).1
    rcases hga : GetBlueprintAsset env st name with ⟨a, st1, b⟩
    rw [hga] at hm
    cases a with
    | none => exact ⟨st1, by simp [Create_entity_name, hga], hm⟩
    | some d =>
      refine ⟨st1, ?_, hm⟩
      simp [Create_entity_name, hga, CreateImpl_data]
  · unfold Create_blueprint
    cases hc : Create st with
    | none => rfl
    | some p =>
      obtain ⟨e, st1⟩ := p
      obtain ⟨he, hne, hst, _, _⟩ := Create_some st e st1 hc
      simp [CreateImpl.eq_def, hne]
  · intro t
    cases t with
    | node comps cc =>
      simp [Create_entity_tree, CreateImpl_tree, CreateImpl.eq_def]

/-- C8 counterexample: a creation attempt by raw data whose file identifier
matches no registered converter returns the null entity and leaves the
entity-to-blueprint-name map without any entry (while still consuming
entity id 1), so not every attempted creation records a map entry. -/
theorem failed_decode_leaves_no_map_entry :
    CreateFromBlueprint envAB ⟨0, [], [], []⟩ (some ⟨4, "XXXX", 0⟩) "thing" =
      some (kNullEntity, ⟨1, [], [], []⟩, []) ∧
    (⟨1, [], [], []⟩ : FState).entity_to_blueprint_map = [] :=
  ⟨rfl, rfl⟩

/-- C8 (amended): the entity-to-blueprint-name entry is recorded exactly when
construction reaches a decoded blueprint — on the raw-data path as soon as
the buffer decodes (before any component construction, hence regardless of
whether any component's system resolves), and on the parsed-blueprint paths —
while attempts failing earlier record no entry: null data and an unknown file
identifier return with the factory state unchanged, a missing asset returns
the null entity with the name map unchanged, and a null blueprint returns the
null entity with the name map unchanged. -/
theorem blueprint_map_entry_recorded (env : Env) (st : FState) :
    (∀ e name d t st' tr ok, e ≠ kNullEntity →
      CreateBlueprintFromData env name (some d) = some t →
      CreateImpl_data env st e name (some d) = some (st', tr, ok) →
      assocFind st'.entity_to_blueprint_map e = some name) ∧
    (∀ bp e st' tr, Create_blueprint env st (some bp) = some (e, st', tr) →
      e ≠ kNullEntity ∧ assocFind st'.entity_to_blueprint_map e = some "") ∧
    (∀ entity t est st' tr,
      Create_entity_tree env st entity t = some (est, st', tr) →
      assocFind st'.entity_to_blueprint_map entity = some "") ∧
    (∀ e name, CreateImpl_data env st e name none = some (st, [], false)) ∧
    (∀ e name d, e ≠ kNullEntity →
      CreateBlueprintFromData env name (some d) = none →
      CreateImpl_data env st e name (some d) = some (st, [], false)) ∧
    (∀ name, (GetBlueprintAsset env st name).1 = none →
      Create_name env st name =
        some (kNullEntity, (GetBlueprintAsset env st name).2.1, []) ∧
      (GetBlueprintAsset env st name).2.1.entity_to_blueprint_map =
        st.entity_to_blueprint_map) ∧
    (∀ r, Create_blueprint env st none = some r →
      r.1 = kNullEntity ∧
      r.2.1.entity_to_blueprint_map = st.entity_to_blueprint_map) := by
  refine ⟨?_, ?_, ?_, ?_, ?_, ?_, ?_⟩
  · intro e name d t st' tr ok he hd h
    unfold CreateImpl_data at h
    rw [if_neg he] at h
    dsimp only at h
    rw [hd] at h
    have hp := CreateImpl_tree_preserves env _ e t (st', tr, ok) h
    exact hp.2.2.2 e name (assocFind_set_self _ e name)
  · intro bp e st' tr h
    unfold Create_blueprint at h
    cases hc : Create st with
    | none =>
      rw [hc] at h
      cases h
    | some p =>
      obtain ⟨e0, st1⟩ := p
      rw [hc] at h
      dsimp only at h
      obtain ⟨he0, hne0, hst1, _, _⟩ := Create_some st e0 st1 hc
      have hI : CreateImpl env st1 e0 (some bp) none =
          some ((createPhase env e0 st1 bp).1,
            (createPhase env e0 st1 bp).2 ++ postTrace env e0 bp, true) := by
        rw [CreateImpl.eq_def]
        dsimp only
        rw [if_neg hne0]
      rw [hI] at h
      dsimp only at h
      simp only [Option.some.injEq, Prod.mk.injEq] at h
      obtain ⟨rfl, rfl, rfl⟩ := h
      exact ⟨hne0, assocFind_set_self _ _ _⟩
  · intro entity t est st' tr h
    unfold Create_entity_tree at h
    dsimp only at h
    cases hI : CreateImpl_tree env
        { st with entity_to_blueprint_map :=
            assocSet st.entity_to_blueprint_map entity "" } entity t with
    | none =>
      rw [hI] at h
      cases h
    | some r =>
      obtain ⟨st2, tr2, ok2⟩ := r
      rw [hI] at h
      dsimp only at h
      simp only [Option.some.injEq, Prod.mk.injEq] at h
      obtain ⟨h1, h2, h3⟩ := h
      subst h2
      have hp := CreateImpl_tree_preserves env _ entity t (st2, tr2, ok2) hI
      exact hp.2.2.2 entity "" (assocFind_set_self _ entity "")
  · intro e name
    unfold CreateImpl_data
    split
    · rfl
    · rfl
  · intro e name d he hd
    unfold CreateImpl_data
    rw [if_neg he]
    dsimp only
    rw [hd]
  · intro name hnone
    have hm := (GetBlueprintAsset_state env st name).1
    rcases hga : GetBlueprintAsset env st name with ⟨a, st1, b⟩
    rw [hga] at hnone hm
    dsimp only at hnone hm
    subst hnone
    refine ⟨?_, hm⟩
    simp [Create_name, hga]
  · intro r h
    unfold Create_blueprint at h
    cases hc : Create st with
    | none =>
      rw [hc] at h
      cases h
    | some p =>
      obtain ⟨e, st1⟩ := p
      rw [hc] at h
      dsimp only at h
      obtain ⟨he, hne, hst1, _, _⟩ := Create_some st e st1 hc
      subst hst1
      have hI : CreateImpl env { st with entity_generator := e } e none none =
          some ({ st with entity_generator := e }, [], false) := by
        rw [CreateImpl.eq_def]
        dsimp only
        rw [if_neg hne]
      rw [hI] at h
      dsimp only at h
      split at h
      · rename_i hok
        simp at hok
      · simp only [Option.some.injEq] at h
        rw [← h]
        exact ⟨rfl, rfl⟩

/-- Witness for C8: decoding "ENTS" data into entity 1 records the 1 ↦ "n"
map entry. -/
theorem blueprint_map_entry_recorded_witness :
    ((1 : Entity) ≠ kNullEntity ∧
     CreateBlueprintFromData envEnts "n" (some ⟨4, "ENTS", 0⟩) =
       some (.node [] []) ∧
     CreateImpl_data envEnts ⟨0, [], [], []⟩ 1 "n" (some ⟨4, "ENTS", 0⟩) =
       some (⟨0, [(1, "n")], [], []⟩, [], true)) ∧
    assocFind (⟨0, [(1, "n")], [], []⟩ : FState).entity_to_blueprint_map 1 =
      some "n" := by
  have hEval : CreateImpl_data envEnts ⟨0, [], [], []⟩ 1 "n" (some ⟨4, "ENTS", 0⟩) =
      some (⟨0, [(1, "n")], [], []⟩, [], true) := by
    simp [CreateImpl_data, CreateBlueprintFromData, GetFlatbufferConverter,
      envEnts, convEnts, CreateImpl_tree, CreateImpl.eq_def,
      createChildren.eq_def, createPhase, postTrace, assocSet, kNullEntity]
  exact ⟨⟨by decide, rfl, hEval⟩,
    (blueprint_map_entry_recorded envEnts ⟨0, [], [], []⟩).1 1 "n"
      ⟨4, "ENTS", 0⟩ (.node [] []) ⟨0, [(1, "n")], [], []⟩ [] true
      (by decide) rfl hEval⟩

theorem CreateImpl_data_gen (env : Env) (st : FState) (e : Entity)
    (name : String) (data : Option RawBuffer) (r : FState × List Event × Bool)
    (hg : st.entity_generator < entityMod)
    (h : CreateImpl_data env st e name data = some r) :
    st.entity_generator ≤ r.1.entity_generator := by
  unfold CreateImpl_data at h
  split at h
  · injection h with h1
    rw [← h1]
  · split at h
    · injection h with h1
      rw [← h1]
    · split at h
      · injection h with h1
        rw [← h1]
      · rename_i d t ht
        have hp := CreateImpl_tree_preserves env _ e t r h
        exact (hp.2.2.1 hg).1

theorem CreateFromBlueprint_gen (env : Env) (st : FState)
    (data : Option RawBuffer) (name : String) (r : Entity × FState × List Event)
    (hg : st.entity_generator < entityMod)
    (h : CreateFromBlueprint env st data name = some r) :
    st.entity_generator < r.2.1.entity_generator := by
  unfold CreateFromBlueprint at h
  cases hc : Create st with
  | none =>
    rw [hc] at h
    cases h
  | some p =>
    obtain ⟨e, st1⟩ := p
    rw [hc] at h
    dsimp only at h
    obtain ⟨he, hne, hst1, hlt, hgt⟩ := Create_some st e st1 hc
    subst hst1
    cases hd : CreateImpl_data env { st with entity_generator := e } e name data with
    | none =>
      rw [hd] at h
      cases h
    | some q =>
      obtain ⟨st2, tr, ok⟩ := q
      rw [hd] at h
      dsimp only at h
      have hgen : e ≤ st2.entity_generator :=
        CreateImpl_data_gen env _ e name data (st2, tr, ok) hlt hd
      simp only [Option.some.injEq] at h
      rw [← h]
      exact lt_of_lt_of_le (hgt hg) hgen

/-- C10 counterexample: a by-name creation whose asset lookup fails returns
the null entity with the factory state — in particular the entity-id
generator — completely unchanged, so this entry point does not consume an id
on that failure. -/
theorem create_by_name_lookup_failure_consumes_no_id :
    Create_name envDemo ⟨0, [], [], []⟩ "missing" =
      some (kNullEntity, ⟨0, [], [], []⟩, []) ∧
    (⟨0, [], [], []⟩ : FState).entity_generator = 0 :=
  ⟨rfl, rfl⟩

/-- C10 (amended): `Create(Blueprint*)`, `Create(BlueprintTree*)` and
`CreateFromBlueprint(data, len, name)` advance the entity-id generator even
when the creation fails and the null entity is returned; `Create(name)`
advances it only once the named asset resolves — a by-name creation failing
at asset lookup consumes no id — and a consumed id is never returned to the
generator. -/
theorem failed_creation_consumes_id (env : Env) (st : FState)
    (hg : st.entity_generator < entityMod) :
    (∀ bp r, Create_blueprint env st bp = some r →
      st.entity_generator < r.2.1.entity_generator) ∧
    (∀ t r, Create_tree env st t = some r →
      st.entity_generator < r.2.1.entity_generator) ∧
    (∀ data name r, CreateFromBlueprint env st data name = some r →
      st.entity_generator < r.2.1.entity_generator) ∧
    (∀ name r, Create_name env st name = some r →
      ((GetBlueprintAsset env st name).1 = none ∧ r.1 = kNullEntity ∧
        r.2.1.entity_generator = st.entity_generator) ∨
      st.entity_generator < r.2.1.entity_generator) := by
  refine ⟨?_, ?_, ?_, ?_⟩
  · intro bp r h
    unfold Create_blueprint at h
    cases hc : Create st with
    | none =>
      rw [hc] at h
      cases h
    | some p =>
      obtain ⟨e, st1⟩ := p
      rw [hc] at h
      dsimp only at h
      obtain ⟨he, hne, hst1, hlt, hgt⟩ := Create_some st e st1 hc
      subst hst1
      cases hI : CreateImpl env { st with entity_generator := e } e bp none with
      | none =>
        rw [hI] at h
        cases h
      | some q =>
        obtain ⟨st2, tr, ok⟩ := q
        rw [hI] at h
        dsimp only at h
        have hgen : e ≤ st2.entity_generator :=
          ((CreateImpl_preserves env _ e bp none (st2, tr, ok) hI).2.2.1 hlt).1
        split at h <;>
          · simp only [Option.some.injEq] at h
            rw [← h]
            exact lt_of_lt_of_le (hgt hg) hgen
  · intro t r h
    unfold Create_tree at h
    cases hc : Create st with
    | none =>
      rw [hc] at h
      cases h
    | some p =>
      obtain ⟨e, st1⟩ := p
      rw [hc] at h
      dsimp only at h
      obtain ⟨he, hne, hst1, hlt, hgt⟩ := Create_some st e st1 hc
      subst hst1
      unfold Create_entity_tree at h
      dsimp only at h
      cases hI : CreateImpl_tree env
          { entity_generator := e,
            entity_to_blueprint_map :=
              assocSet st.entity_to_blueprint_map e "",
            pending_destroy := st.pending_destroy,
            blueprints := st.blueprints } e t with
      | none =>
        rw [hI] at h
        cases h
      | some q =>
        obtain ⟨st2, tr, ok⟩ := q
        rw [hI] at h
        dsimp only at h
        have hgen : e ≤ st2.entity_generator :=
          ((CreateImpl_tree_preserves env _ e t (st2, tr, ok) hI).2.2.1 hlt).1
        split at h <;>
          · simp only [Option.some.injEq] at h
            rw [← h]
            exact lt_of_lt_of_le (hgt hg) hgen
  · intro data name r h
    exact CreateFromBlueprint_gen env st data name r hg h
  · intro name r h
    have hgen1 := (GetBlueprintAsset_state env st name).2.1
    rcases hga : GetBlueprintAsset env st name with ⟨a, st1, b⟩
    rw [hga] at hgen1
    unfold Create_name at h
    rw [hga] at h
    cases a with
    | none =>
      dsimp only at h
      simp only [Option.some.injEq] at h
      refine Or.inl ⟨rfl, ?_, ?_⟩
      · rw [← h]
      · rw [← h]
        exact hgen1
    | some d =>
      dsimp only at h
      refine Or.inr ?_
      have := CreateFromBlueprint_gen env st1 (some d) name r
        (by rw [hgen1]; exact hg) h
      rw [hgen1] at this
      exact this

/-- Witness for C10: a raw-data creation that fails at converter resolution
still advances the generator from 0 to 1. -/
theorem failed_creation_consumes_id_witness :
    ((⟨0, [], [], []⟩ : FState).entity_generator < entityMod ∧
     CreateFromBlueprint envAB ⟨0, [], [], []⟩ (some ⟨4, "XXXX", 0⟩) "thing" =
       some (kNullEntity, ⟨1, [], [], []⟩, [])) ∧
    (⟨0, [], [], []⟩ : FState).entity_generator <
      (⟨1, [], [], []⟩ : FState).entity_generator :=
  ⟨⟨by decide, rfl⟩,
   (failed_creation_consumes_id envAB ⟨0, [], [], []⟩ (by decide)).2.2.1
     (some ⟨4, "XXXX", 0⟩) "thing" (kNullEntity, ⟨1, [], [], []⟩, []) rfl⟩

/-- C1: constructing an entity from a `BlueprintTree` via `CreateImpl` emits,
in order: the parent's `CreateComponent` calls for the top-level components
in source order (skipping components whose system does not resolve), then the
complete construction trace of every child tree in source order — each child
beginning with a fresh id from the allocator — and only then the parent's
`PostCreateComponent` calls for the same components in the same order, with
the same skip rule. -/
theorem create_impl_call_order (env : Env) (st : FState) (e : Entity)
    (comps : List Component) (children : List BlueprintTree)
    (st' : FState) (tr : List Event) (ok : Bool)
    (he : e ≠ kNullEntity)
    (h : CreateImpl_tree env st e (.node comps children) = some (st', tr, ok)) :
    ok = true ∧
    (∃ ctr, createChildren env (createPhase env e st comps).1 children =
        some (st', ctr) ∧
      tr = createTrace env e comps ++ ctr ++ postTrace env e comps) ∧
    (∀ (st0 : FState) (c : BlueprintTree) (rest : List BlueprintTree),
      createChildren env st0 (c :: rest) =
        match createChild env st0 c with
        | none => none
        | some q =>
          match createChildren env q.1 rest with
          | none => none
          | some r2 => some (r2.1, q.2 ++ r2.2)) ∧
    (∀ (st0 : FState) (c : BlueprintTree),
      createChild env st0 c =
        match Create st0 with
        | none => none
        | some p =>
          match CreateImpl_tree env p.2 p.1 c with
          | none => none
          | some r2 => some (r2.1, r2.2.1)) := by
  unfold CreateImpl_tree at h
  dsimp only at h
  rw [CreateImpl.eq_def] at h
  rw [if_neg he] at h
  dsimp only at h
  refine ⟨?_, ?_, ?_, ?_⟩
  · cases hc : createChildren env (createPhase env e st comps).1 children with
    | none =>
      rw [hc] at h
      cases h
    | some q =>
      rw [hc] at h
      dsimp only at h
      simp only [Option.some.injEq, Prod.mk.injEq] at h
      exact h.2.2.symm
  · cases hc : createChildren env (createPhase env e st comps).1 children with
    | none =>
      rw [hc] at h
      cases h
    | some q =>
      obtain ⟨q1, q2⟩ := q
      rw [hc] at h
      dsimp only at h
      simp only [Option.some.injEq, Prod.mk.injEq] at h
      obtain ⟨rfl, rfl, rfl⟩ := h
      exact ⟨q2, rfl, by rw [createPhase_trace]⟩
  · intro st0 c rest
    rw [createChildren.eq_def]
  · intro st0 c
    cases c with
    | node comps2 cc2 =>
      rw [createChild.eq_def]
      cases hcr : Create st0 with
      | none => rfl
      | some p =>
        obtain ⟨ce, st1⟩ := p
        dsimp only
        rfl

/-- Witness for C1: the spec's instrumented scenario — a parent component of
def-type 7 with two child blueprints — yields exactly parent-create,
child-1 create and post-create, child-2 create and post-create, then
parent post-create, with the children receiving fresh ids 2 and 3. -/
theorem create_impl_call_order_witness :
    ((1 : Entity) ≠ kNullEntity ∧
     CreateImpl_tree envDemo ⟨1, [], [], []⟩ 1 demoTree =
       some (⟨3, [], [], []⟩, demoTraceLog, true)) ∧
    (true = true ∧
     ∃ ctr, createChildren envDemo
         (createPhase envDemo 1 ⟨1, [], [], []⟩ [⟨7⟩]).1
         [.node [⟨7⟩] [], .node [⟨7⟩] []] = some (⟨3, [], [], []⟩, ctr) ∧
       demoTraceLog =
         createTrace envDemo 1 [⟨7⟩] ++ ctr ++ postTrace envDemo 1 [⟨7⟩]) := by
  have hEval : CreateImpl_tree envDemo ⟨1, [], [], []⟩ 1 demoTree =
      some (⟨3, [], [], []⟩, demoTraceLog, true) := by
    simp [demoTree, demoTraceLog, envDemo, CreateImpl_tree, CreateImpl.eq_def,
      createChildren.eq_def, createChild.eq_def, createPhase, createTrace,
      postTrace, GetSystem, assocFind, List.find?, Create, entityMod,
      kNullEntity, mapTouch]
  have hmain := create_impl_call_order envDemo ⟨1, [], [], []⟩ 1 [⟨7⟩]
    [.node [⟨7⟩] [], .node [⟨7⟩] []] ⟨3, [], [], []⟩ demoTraceLog true
    (by decide) hEval
  exact ⟨⟨by decide, hEval⟩, hmain.1, hmain.2.1⟩

end Lull
